import Mathlib

/-!
Verification of the snap-point subsystem of SlabWizard
(`DrawingArea.py`: `SnapManager` and `DrawingArea`).

Shallow embedding conventions:
* `QPointF` scene coordinates are modelled over an arbitrary linearly
  ordered commutative ring `α`: the snap code only ever adds, subtracts,
  takes absolute values and compares coordinates, so this covers the
  exact-real reading of the source's floating-point `qreal` (instantiate
  `α := ℚ` or `α := ℝ`); concrete witnesses instantiate `α := ℤ`.
* A `QGraphicsScene`'s item list becomes a `List (Item α)`; each item
  carries a stable identity (`id : Nat`) standing for Python object
  identity, its `pos()` translation, its geometry (`QGraphicsRectItem`
  local rect, or a line's two endpoints), the `isTemporary` flag of the
  entity classes, and a provenance tag (`purpose`) recording why the item
  is in the scene (user-drawn shape, temporary preview, snap-indicator
  visual, crosshair).  The snap code in the source never reads the flag or
  the provenance.
* `item.mapToScene(p)` is `item.pos + p`: the application never rotates or
  scales items, so the item-to-scene transform is the translation by
  `pos()`.
* Snap-point *visuals* (`scene.addRect(point.x - r/2, point.y - r/2, r, r)`)
  are read back by the source only through
  `visual.mapToScene(rect().center())`, which returns exactly the snap
  point each visual was created from; the embedding therefore stores the
  centre points themselves where the source stores lists of visuals.
-/

namespace SlabWizard

/-- A point in scene coordinates (`QPointF`). -/
structure Point (α : Type) where
  x : α
  y : α
deriving DecidableEq

instance {α : Type} [Add α] : Add (Point α) where
  add p q := ⟨p.x + q.x, p.y + q.y⟩

instance {α : Type} [Sub α] : Sub (Point α) where
  sub p q := ⟨p.x - q.x, p.y - q.y⟩

variable {α : Type} [LinearOrderedCommRing α]

/-- `QPointF.manhattanLength()`: `|x| + |y|`. -/
def Point.manhattanLength (p : Point α) : α :=
  |p.x| + |p.y|

/-- Why an item is in the scene.  The snap code never inspects this; it is
recorded so that independence from item provenance can be stated. -/
inductive ItemPurpose where
  | userShape
  | tempPreview
  | snapIndicator
  | crosshair
deriving DecidableEq

/-- Geometry of a scene item: a `QGraphicsRectItem` with its local rect
(top-left corner, width, height), or a `QGraphicsLineItem` with its two
endpoints (`LineEntity.start_point` / `end_point`). -/
inductive ItemKind (α : Type) where
  | rect (topLeft : Point α) (w h : α)
  | line (p1 p2 : Point α)
deriving DecidableEq

/-- A `QGraphicsItem` in the scene. -/
structure Item (α : Type) where
  id : Nat
  pos : Point α
  kind : ItemKind α
  isTemporary : Bool
  purpose : ItemPurpose
deriving DecidableEq

/-- `isinstance(item, QGraphicsRectItem)`. -/
def Item.isRect (it : Item α) : Bool :=
  match it.kind with
  | ItemKind.rect _ _ _ => true
  | ItemKind.line _ _ => false

/-- `item.mapToScene(p)`: the app only ever translates items, so the
item-to-scene transform is translation by `item.pos()`. -/
def Item.mapToScene (it : Item α) (p : Point α) : Point α :=
  it.pos + p

/-- The four points
`item.mapToScene(rect.topLeft()), … topRight(), … bottomLeft(), … bottomRight()`
pushed by `calculateFixedSnapPoints` for a rect item (empty for non-rects). -/
def Item.cornerPoints (it : Item α) : List (Point α) :=
  match it.kind with
  | ItemKind.rect tl w h =>
      [ it.mapToScene tl,
        it.mapToScene ⟨tl.x + w, tl.y⟩,
        it.mapToScene ⟨tl.x, tl.y + h⟩,
        it.mapToScene ⟨tl.x + w, tl.y + h⟩ ]
  | ItemKind.line _ _ => []

/-- `item != excludeItem` in Python compares object identity, and
`excludeItem=None` matches no item; `matchesExclude ex it` is true exactly
when the item is the excluded one. -/
def matchesExclude (excludeItem : Option Nat) (it : Item α) : Bool :=
  match excludeItem with
  | none => false
  | some e => it.id == e

/-- The scene loop of `DrawingArea.calculateFixedSnapPoints`
(`for item in self.scene.items(): if item != excludeItem and
isinstance(item, QGraphicsRectItem): snapPoints += [the four corners]`). -/
def DrawingArea.fixedSnapPointsAux (excludeItem : Option Nat) : List (Item α) → List (Point α)
  | [] => []
  | it :: rest =>
      (if !matchesExclude excludeItem it && it.isRect then it.cornerPoints else [])
        ++ DrawingArea.fixedSnapPointsAux excludeItem rest

/-- `DrawingArea.calculateFixedSnapPoints(excludeItem)`: starts from
`[QPointF(0, 0)]` and appends the corner points of every non-excluded
rect item, in scene iteration order; returns the list. -/
def DrawingArea.calculateFixedSnapPoints (scene : List (Item α)) (excludeItem : Option Nat) :
    List (Point α) :=
  (⟨0, 0⟩ : Point α) :: DrawingArea.fixedSnapPointsAux excludeItem scene

/-- Instrumented copy of the scene loop: each emitted point is paired with
the identity of the item it was derived from. -/
def DrawingArea.fixedSnapPointsTaggedAux (excludeItem : Option Nat) :
    List (Item α) → List (Option Nat × Point α)
  | [] => []
  | it :: rest =>
      (if !matchesExclude excludeItem it && it.isRect then
          it.cornerPoints.map (fun p => (some it.id, p))
        else [])
        ++ DrawingArea.fixedSnapPointsTaggedAux excludeItem rest

/-- Instrumented `calculateFixedSnapPoints`: every point tagged with its
source item's identity (`none` for the world origin). -/
def DrawingArea.calculateFixedSnapPointsTagged (scene : List (Item α))
    (excludeItem : Option Nat) : List (Option Nat × Point α) :=
  ((none : Option Nat), (⟨0, 0⟩ : Point α))
    :: DrawingArea.fixedSnapPointsTaggedAux excludeItem scene

/-- `DrawingArea.calculateDraggingItemSnapPoints`: `[]` when nothing is
being dragged; the four mapped corners when the dragged item is a
`QGraphicsRectItem`; `[]` otherwise (a dragged `LineEntity` yields none). -/
def DrawingArea.calculateDraggingItemSnapPoints (currentlyDraggingItem : Option (Item α)) :
    List (Point α) :=
  match currentlyDraggingItem with
  | none => []
  | some it => if it.isRect then it.cornerPoints else []

/-- The state a `SnapManager` instance owns: the scene it reads, the
`snap_radius`, and the `fixed_snap_points` cache it writes (the visuals
list is never read back except to be removed, and is omitted). -/
structure SnapManagerState (α : Type) where
  scene : List (Item α)
  snapRadius : α
  fixedSnapPointsCache : List (Point α)
deriving DecidableEq

/-- `SnapManager.calculateFixedSnapPoints(excludeItem)`: computes the same
point list as the `DrawingArea` version and assigns it to
`self.fixed_snap_points`; returns nothing, so the whole effect is the
state update. -/
def SnapManager.calculateFixedSnapPoints (st : SnapManagerState α)
    (excludeItem : Option Nat) : SnapManagerState α :=
  { st with
      fixedSnapPointsCache := DrawingArea.calculateFixedSnapPoints st.scene excludeItem }

/-- One iteration of the nearest-scan in
`SnapManager.display_hovering_snap_points`: the accumulator is `none`
while `min_distance` is still infinity, else the current
`(nearest_snap_point, min_distance)` pair; the source condition is
`distance <= self.snap_radius and distance < min_distance`. -/
def SnapManager.nearestStep (cursorPos : Point α) (snapRadius : α)
    (acc : Option (Point α × α)) (point : Point α) : Option (Point α × α) :=
  let distance := (point - cursorPos).manhattanLength
  match acc with
  | none => if distance ≤ snapRadius then some (point, distance) else none
  | some (_, minDistance) =>
      if distance ≤ snapRadius ∧ distance < minDistance then some (point, distance) else acc

/-- The proximity finder inside `SnapManager.display_hovering_snap_points`:
scan the candidates with `nearestStep` and return the nearest snap point
found, if any (the part of the method that decides *which* point gets a
visual). -/
def SnapManager.findNearest (cursorPos : Point α) (candidates : List (Point α))
    (snapRadius : α) : Option (Point α) :=
  (candidates.foldl (SnapManager.nearestStep cursorPos snapRadius) none).map Prod.fst

/-- One step of the minimum-selection described by the spec: keep the
earlier candidate unless the new one is strictly nearer (first-seen wins
exact ties). -/
def nearestSpecStep (cursorPos : Point α) (acc : Option (Point α)) (p : Point α) :
    Option (Point α) :=
  match acc with
  | none => some p
  | some q =>
      if (p - cursorPos).manhattanLength < (q - cursorPos).manhattanLength then some p
      else acc

/-- Modelled from the spec's words, for comparison with the code's scan:
the first-seen candidate of minimum Manhattan distance over the whole
candidate list, returned iff that minimum distance is ≤ the radius;
`none` for an empty candidate list. -/
def nearestSpec (cursorPos : Point α) (candidates : List (Point α)) (snapRadius : α) :
    Option (Point α) :=
  match candidates.foldl (nearestSpecStep cursorPos) none with
  | none => none
  | some q => if (q - cursorPos).manhattanLength ≤ snapRadius then some q else none

/-- Invariant tying the code's scan accumulator to the spec's running
minimum: the code holds the running minimum exactly when that minimum is
within the radius, and holds nothing otherwise. -/
def NearInv (cursorPos : Point α) (snapRadius : α) (c : Option (Point α × α))
    (s : Option (Point α)) : Prop :=
  match s with
  | none => c = none
  | some q =>
      ((q - cursorPos).manhattanLength ≤ snapRadius ∧
        c = some (q, (q - cursorPos).manhattanLength)) ∨
      (¬ (q - cursorPos).manhattanLength ≤ snapRadius ∧ c = none)

/-- The inner loop of `DrawingArea.checkSnapPointsProximityAndSnap`: first
moving point within `specified_distance` of the fixed point `f`. -/
def firstWithin (f : Point α) (specifiedDistance : α) : List (Point α) → Option (Point α)
  | [] => none
  | m :: ms =>
      if (f - m).manhattanLength ≤ specifiedDistance then some m
      else firstWithin f specifiedDistance ms

/-- The double loop of `DrawingArea.checkSnapPointsProximityAndSnap`
(fixed points outer, moving points inner); returns the first qualifying
`(fixedPoint, draggingPoint)` pair, at which the source snaps and
returns. -/
def findSnapPair (specifiedDistance : α) (fixedPoints movingPoints : List (Point α)) :
    Option (Point α × Point α) :=
  match fixedPoints with
  | [] => none
  | f :: fs =>
      match firstWithin f specifiedDistance movingPoints with
      | some m => some (f, m)
      | none => findSnapPair specifiedDistance fs movingPoints

/-- Position effect of `DrawingArea.checkSnapPointsProximityAndSnap`
followed by `snapObjectToFixedPoint`: on the first qualifying pair, the
item's position (currently the unsnapped candidate `pos`) becomes
`pos + (fixedPoint - draggingPoint)`; with no qualifying pair it stays.
The source returns right after the first snap, so at most one correction
is applied per call. -/
def DrawingArea.checkSnapPointsProximityAndSnap (pos : Point α)
    (fixedPoints movingPoints : List (Point α)) (specifiedDistance : α) : Point α :=
  match findSnapPair specifiedDistance fixedPoints movingPoints with
  | none => pos
  | some (f, m) => pos + (f - m)

/-- `(f, m)` is the lexicographically first pair of the outer/inner scan
with Manhattan distance within the radius: every earlier fixed point has
no moving point within radius, and for the same fixed point no earlier
moving point is within radius. -/
def IsFirstSnapPair (specifiedDistance : α) (fixedPoints movingPoints : List (Point α))
    (f m : Point α) : Prop :=
  ∃ i : Fin fixedPoints.length, ∃ j : Fin movingPoints.length,
    fixedPoints.get i = f ∧ movingPoints.get j = m ∧
    (f - m).manhattanLength ≤ specifiedDistance ∧
    (∀ f' ∈ fixedPoints.take i.val, ∀ m' ∈ movingPoints,
        ¬ (f' - m').manhattanLength ≤ specifiedDistance) ∧
    (∀ m' ∈ movingPoints.take j.val, ¬ (f - m').manhattanLength ≤ specifiedDistance)

/-- One move tick of `DrawingArea.handleDragging` on a dragged rect item
whose local corner offsets (`mapToScene(corner) - pos()`) are `offs`:
`newPos = scenePos - dragOffset`; `setPos(newPos)`; recompute the moving
snap points at `newPos`; then `checkSnapPointsProximityAndSnap`.  Returns
the item's position after the tick. -/
def DrawingArea.handleDragging (dragOffset : Point α) (fixedPoints : List (Point α))
    (offs : List (Point α)) (specifiedDistance : α) (scenePos : Point α) : Point α :=
  let newPos := scenePos - dragOffset
  let movingPoints := offs.map (fun o => newPos + o)
  DrawingArea.checkSnapPointsProximityAndSnap newPos fixedPoints movingPoints
    specifiedDistance

/-- A whole drag session after `mousePressEvent` captured
`dragOffset = scenePos - item.pos()`: every move event reruns
`handleDragging`, whose result does not depend on the previous position. -/
def DrawingArea.dragSession (dragOffset : Point α) (fixedPoints : List (Point α))
    (offs : List (Point α)) (specifiedDistance : α) (startPos : Point α)
    (moves : List (Point α)) : Point α :=
  moves.foldl (fun _pos scenePos =>
    DrawingArea.handleDragging dragOffset fixedPoints offs specifiedDistance scenePos)
    startPos

/-- The drag-relevant controller fields of `DrawingArea`:
`currentlyDraggingItem` (by identity), the `_isDraggingStarted` flag, and
the frozen fixed snap points (centres of the `fixedSnapPoints` visuals). -/
structure DragControllerState (α : Type) where
  currentlyDraggingItem : Option Nat
  isDraggingStarted : Bool
  fixedSnapPoints : List (Point α)
deriving DecidableEq

/-- `mousePressEvent` over a movable item: record the dragged item and set
`_isDraggingStarted = True` (the captured `dragOffset` plays no role in
which fixed points get frozen and is tracked separately). -/
def DrawingArea.mousePressBeginDrag (itemId : Nat) (st : DragControllerState α) :
    DragControllerState α :=
  { st with currentlyDraggingItem := some itemId, isDraggingStarted := true }

/-- Effect of one `mouseMoveEvent` on the drag-relevant controller fields,
given the scene contents at that tick: while dragging, the first move
after the press computes the fixed snap points with the dragged item
excluded, appends them (as `displaySnapPoints` appends one visual per
point to `self.fixedSnapPoints`) and clears `_isDraggingStarted`; later
moves leave all three fields unchanged (`handleDragging` touches neither
`fixedSnapPoints` nor the flag nor the dragged-item reference). -/
def DrawingArea.mouseMoveEventSnapState (scene : List (Item α))
    (st : DragControllerState α) : DragControllerState α :=
  match st.currentlyDraggingItem with
  | none => st
  | some _ =>
      if st.isDraggingStarted then
        { st with
            fixedSnapPoints := st.fixedSnapPoints
              ++ DrawingArea.calculateFixedSnapPoints scene st.currentlyDraggingItem,
            isDraggingStarted := false }
      else st

/-- A sequence of move events, each seeing the scene contents of its own
tick (the scene changes between ticks: the dragged item moves and visual
items come and go). -/
def DrawingArea.runMoveEvents (st : DragControllerState α)
    (scenes : List (List (Item α))) : DragControllerState α :=
  scenes.foldl (fun s scene => DrawingArea.mouseMoveEventSnapState scene s) st

/-- Rewrite an item's `isTemporary` flag and provenance tag, keeping its
identity, position and geometry. -/
def Item.retag (tmp : Item α → Bool) (pur : Item α → ItemPurpose) (it : Item α) :
    Item α :=
  { it with isTemporary := tmp it, purpose := pur it }

theorem Point.add_x {β : Type} [Add β] (p q : Point β) : (p + q).x = p.x + q.x := rfl

theorem Point.add_y {β : Type} [Add β] (p q : Point β) : (p + q).y = p.y + q.y := rfl

theorem Point.sub_x {β : Type} [Sub β] (p q : Point β) : (p - q).x = p.x - q.x := rfl

theorem Point.sub_y {β : Type} [Sub β] (p q : Point β) : (p - q).y = p.y - q.y := rfl

theorem Point.ext_xy {β : Type} {p q : Point β} (hx : p.x = q.x) (hy : p.y = q.y) :
    p = q := by
  cases p
  cases q
  cases hx
  cases hy
  rfl

theorem nearInv_init (cursorPos : Point α) (snapRadius : α) :
    NearInv cursorPos snapRadius none none := rfl

theorem nearInv_step (cursorPos : Point α) (snapRadius : α)
    (c : Option (Point α × α)) (s : Option (Point α)) (p : Point α)
    (h : NearInv cursorPos snapRadius c s) :
    NearInv cursorPos snapRadius (SnapManager.nearestStep cursorPos snapRadius c p)
      (nearestSpecStep cursorPos s p) := by
  cases s with
  | none =>
      have hc : c = none := h
      subst hc
      simp only [SnapManager.nearestStep, nearestSpecStep, NearInv]
      split_ifs with hd
      · exact Or.inl ⟨hd, rfl⟩
      · exact Or.inr ⟨hd, rfl⟩
  | some q =>
      have h' : ((q - cursorPos).manhattanLength ≤ snapRadius ∧
          c = some (q, (q - cursorPos).manhattanLength)) ∨
          (¬ (q - cursorPos).manhattanLength ≤ snapRadius ∧ c = none) := h
      rcases h' with ⟨hq, hc⟩ | ⟨hq, hc⟩
      · subst hc
        simp only [SnapManager.nearestStep, nearestSpecStep, NearInv]
        by_cases hlt :
          (p - cursorPos).manhattanLength < (q - cursorPos).manhattanLength
        · have hle : (p - cursorPos).manhattanLength ≤ snapRadius :=
            le_trans (le_of_lt hlt) hq
          rw [if_pos hlt, if_pos ⟨hle, hlt⟩]
          exact Or.inl ⟨hle, rfl⟩
        · rw [if_neg hlt, if_neg (fun hx => hlt hx.2)]
          exact Or.inl ⟨hq, rfl⟩
      · subst hc
        simp only [SnapManager.nearestStep, nearestSpecStep, NearInv]
        by_cases hle : (p - cursorPos).manhattanLength ≤ snapRadius
        · have hlt :
              (p - cursorPos).manhattanLength < (q - cursorPos).manhattanLength :=
            lt_of_le_of_lt hle (not_le.mp hq)
          rw [if_pos hlt, if_pos hle]
          exact Or.inl ⟨hle, rfl⟩
        · rw [if_neg hle]
          by_cases hlt :
            (p - cursorPos).manhattanLength < (q - cursorPos).manhattanLength
          · rw [if_pos hlt]
            exact Or.inr ⟨hle, rfl⟩
          · rw [if_neg hlt]
            exact Or.inr ⟨hq, rfl⟩

theorem nearInv_foldl (cursorPos : Point α) (snapRadius : α)
    (candidates : List (Point α)) :
    ∀ (c : Option (Point α × α)) (s : Option (Point α)),
      NearInv cursorPos snapRadius c s →
      NearInv cursorPos snapRadius
        (candidates.foldl (SnapManager.nearestStep cursorPos snapRadius) c)
        (candidates.foldl (nearestSpecStep cursorPos) s) := by
  induction candidates with
  | nil => exact fun c s h => h
  | cons p rest ih =>
      intro c s h
      exact ih _ _ (nearInv_step cursorPos snapRadius c s p h)

/-- C1: for every query point, candidate sequence and radius, the scan in
`SnapManager.display_hovering_snap_points` returns exactly what the spec
describes: the first-seen candidate at minimum Manhattan distance
(`|dx| + |dy|`, first-seen wins exact ties), provided that minimum
distance is ≤ the radius, and `none` when no candidate is within the
radius. -/
theorem findNearest_eq_nearestSpec (cursorPos : Point α) (candidates : List (Point α))
    (snapRadius : α) :
    SnapManager.findNearest cursorPos candidates snapRadius
      = nearestSpec cursorPos candidates snapRadius := by
  have h := nearInv_foldl cursorPos snapRadius candidates none none
    (nearInv_init cursorPos snapRadius)
  unfold SnapManager.findNearest nearestSpec
  cases hs : candidates.foldl (nearestSpecStep cursorPos) none with
  | none =>
      rw [hs] at h
      have hc : candidates.foldl (SnapManager.nearestStep cursorPos snapRadius) none
          = none := h
      rw [hc]
      rfl
  | some q =>
      rw [hs] at h
      have h' : ((q - cursorPos).manhattanLength ≤ snapRadius ∧
          candidates.foldl (SnapManager.nearestStep cursorPos snapRadius) none
            = some (q, (q - cursorPos).manhattanLength)) ∨
          (¬ (q - cursorPos).manhattanLength ≤ snapRadius ∧
          candidates.foldl (SnapManager.nearestStep cursorPos snapRadius) none
            = none) := h
      rcases h' with ⟨hq, hc⟩ | ⟨hq, hc⟩
      · rw [hc]
        simp [hq]
      · rw [hc]
        simp [hq]

/-- C9: for every query point and radius, the nearest-scan applied to an
empty candidate sequence returns `none`; it is a total function, so this
is a normal outcome and never a failure. -/
theorem findNearest_nil (cursorPos : Point α) (snapRadius : α) :
    SnapManager.findNearest cursorPos [] snapRadius = none := rfl

theorem firstWithin_eq_none (f : Point α) (r : α) :
    ∀ (l : List (Point α)), firstWithin f r l = none →
      ∀ m ∈ l, ¬ (f - m).manhattanLength ≤ r := by
  intro l
  induction l with
  | nil =>
      intro _ m hm
      cases hm
  | cons p ps ih =>
      intro h m hm
      simp only [firstWithin] at h
      by_cases hd : (f - p).manhattanLength ≤ r
      · rw [if_pos hd] at h
        cases h
      · rw [if_neg hd] at h
        rcases List.mem_cons.mp hm with rfl | hm'
        · exact hd
        · exact ih h m hm'

theorem firstWithin_eq_none_of (f : Point α) (r : α) :
    ∀ (l : List (Point α)), (∀ m ∈ l, ¬ (f - m).manhattanLength ≤ r) →
      firstWithin f r l = none := by
  intro l
  induction l with
  | nil => intro _; rfl
  | cons p ps ih =>
      intro h
      simp only [firstWithin]
      rw [if_neg (h p (List.mem_cons_self p ps))]
      exact ih (fun m hm => h m (List.mem_cons_of_mem p hm))

theorem firstWithin_eq_some (f : Point α) (r : α) :
    ∀ (l : List (Point α)) (m : Point α), firstWithin f r l = some m →
      ∃ j : Fin l.length, l.get j = m ∧ (f - m).manhattanLength ≤ r ∧
        ∀ m' ∈ l.take j.val, ¬ (f - m').manhattanLength ≤ r := by
  intro l
  induction l with
  | nil =>
      intro m h
      cases h
  | cons p ps ih =>
      intro m h
      simp only [firstWithin] at h
      by_cases hd : (f - p).manhattanLength ≤ r
      · rw [if_pos hd] at h
        injection h with h
        refine ⟨⟨0, Nat.succ_pos _⟩, h, ?_, ?_⟩
        · rw [← h]
          exact hd
        · intro m' hm'
          cases hm'
      · rw [if_neg hd] at h
        obtain ⟨j, hget, hle, htake⟩ := ih m h
        refine ⟨⟨j.val + 1, Nat.succ_lt_succ j.isLt⟩, hget, hle, ?_⟩
        intro m' hm'
        rw [List.take_succ_cons] at hm'
        rcases List.mem_cons.mp hm' with rfl | hm''
        · exact hd
        · exact htake m' hm''

theorem findSnapPair_eq_some (r : α) :
    ∀ (fixedPoints movingPoints : List (Point α)) (f m : Point α),
      findSnapPair r fixedPoints movingPoints = some (f, m) →
      IsFirstSnapPair r fixedPoints movingPoints f m := by
  intro fixedPoints
  induction fixedPoints with
  | nil =>
      intro moving f m h
      cases h
  | cons f0 fs ih =>
      intro moving f m h
      cases hfw : firstWithin f0 r moving with
      | some m0 =>
          simp only [findSnapPair, hfw, Option.some.injEq, Prod.mk.injEq] at h
          obtain ⟨rfl, rfl⟩ := h
          obtain ⟨j, hget, hle, htake⟩ := firstWithin_eq_some f0 r moving m0 hfw
          refine ⟨⟨0, Nat.succ_pos _⟩, j, rfl, hget, hle, ?_, htake⟩
          intro f' hf'
          cases hf'
      | none =>
          simp only [findSnapPair, hfw] at h
          obtain ⟨i, j, hgf, hgm, hle, hfix, hmov⟩ := ih moving f m h
          refine ⟨⟨i.val + 1, Nat.succ_lt_succ i.isLt⟩, j, hgf, hgm, hle, ?_, hmov⟩
          intro f' hf' m' hm'
          rw [List.take_succ_cons] at hf'
          rcases List.mem_cons.mp hf' with heq | hf''
          · rw [heq]
            exact firstWithin_eq_none f0 r moving hfw m' hm'
          · exact hfix f' hf'' m' hm'

theorem findSnapPair_eq_none_of (r : α) :
    ∀ (fixedPoints movingPoints : List (Point α)),
      (∀ f ∈ fixedPoints, ∀ m ∈ movingPoints, ¬ (f - m).manhattanLength ≤ r) →
      findSnapPair r fixedPoints movingPoints = none := by
  intro fixedPoints
  induction fixedPoints with
  | nil => intro _ _; rfl
  | cons f0 fs ih =>
      intro moving h
      simp only [findSnapPair]
      rw [firstWithin_eq_none_of f0 r moving (h f0 (List.mem_cons_self f0 fs))]
      exact ih moving (fun f hf m hm => h f (List.mem_cons_of_mem f0 hf) m hm)

theorem Point.snap_coincide (c f o : Point α) : (c + (f - (c + o))) + o = f := by
  apply Point.ext_xy
  · simp only [Point.add_x, Point.sub_x]
    ring
  · simp only [Point.add_y, Point.sub_y]
    ring

/-- C2: on a drag move tick, when the outer/inner scan of
`checkSnapPointsProximityAndSnap` finds a qualifying pair `(f, m)`, that
pair is the lexicographically first one (fixed points outer, moving
points inner) within the snap radius — determined by iteration order, not
by nearest distance; the tick sets the dragged shape's position to the
unsnapped candidate `scenePos - dragOffset` plus `f - m`, which makes the
chosen pair coincide; the source returns immediately after the first
pair, so at most one snap correction is applied per tick. -/
theorem handleDragging_snaps_first_pair (dragOffset : Point α)
    (fixedPoints offs : List (Point α)) (specifiedDistance : α)
    (scenePos f m : Point α)
    (h : findSnapPair specifiedDistance fixedPoints
        (offs.map (fun o => (scenePos - dragOffset) + o)) = some (f, m)) :
    DrawingArea.handleDragging dragOffset fixedPoints offs specifiedDistance scenePos
      = (scenePos - dragOffset) + (f - m) ∧
    IsFirstSnapPair specifiedDistance fixedPoints
      (offs.map (fun o => (scenePos - dragOffset) + o)) f m ∧
    ∃ o ∈ offs, m = (scenePos - dragOffset) + o ∧
      ((scenePos - dragOffset) + (f - m)) + o = f := by
  have hfirst := findSnapPair_eq_some specifiedDistance fixedPoints
    (offs.map (fun o => (scenePos - dragOffset) + o)) f m h
  refine ⟨?_, hfirst, ?_⟩
  · simp only [DrawingArea.handleDragging, DrawingArea.checkSnapPointsProximityAndSnap, h]
  · obtain ⟨_, j, _, hgm, _, _, _⟩ := hfirst
    have hmem : m ∈ offs.map (fun o => (scenePos - dragOffset) + o) := by
      rw [← hgm]
      exact List.get_mem _ _ j.isLt
    obtain ⟨o, ho, hmo⟩ := List.mem_map.mp hmem
    refine ⟨o, ho, hmo.symm, ?_⟩
    rw [← hmo]
    exact Point.snap_coincide (scenePos - dragOffset) f o

/-- Witness for C2 at the spec's Scenario B: dragging so that the moving
corner lands at `(48, 48)` while a fixed corner sits at `(50, 50)` with
radius `50` (Manhattan distance `4 ≤ 50`) snaps the position by
`(+2, +2)`. -/
theorem handleDragging_snaps_first_pair_witness :
    DrawingArea.handleDragging (⟨0, 0⟩ : Point ℤ) [⟨50, 50⟩] [⟨0, 0⟩] 50 ⟨48, 48⟩
      = ((⟨48, 48⟩ : Point ℤ) - ⟨0, 0⟩) + ((⟨50, 50⟩ : Point ℤ) - ⟨48, 48⟩) ∧
    IsFirstSnapPair (50 : ℤ) [⟨50, 50⟩]
      (([⟨0, 0⟩] : List (Point ℤ)).map
        (fun o => ((⟨48, 48⟩ : Point ℤ) - ⟨0, 0⟩) + o))
      ⟨50, 50⟩ ⟨48, 48⟩ ∧
    ∃ o ∈ ([⟨0, 0⟩] : List (Point ℤ)),
      (⟨48, 48⟩ : Point ℤ) = ((⟨48, 48⟩ : Point ℤ) - ⟨0, 0⟩) + o ∧
      (((⟨48, 48⟩ : Point ℤ) - ⟨0, 0⟩) + ((⟨50, 50⟩ : Point ℤ) - ⟨48, 48⟩)) + o
        = ⟨50, 50⟩ :=
  handleDragging_snaps_first_pair ⟨0, 0⟩ [⟨50, 50⟩] [⟨0, 0⟩] 50 ⟨48, 48⟩ ⟨50, 50⟩
    ⟨48, 48⟩ (by decide)

theorem dragSession_eq_handleDragging_last (dragOffset : Point α)
    (fixedPoints offs : List (Point α)) (specifiedDistance : α) :
    ∀ (moves : List (Point α)) (startPos lastMove : Point α),
      moves.getLast? = some lastMove →
      DrawingArea.dragSession dragOffset fixedPoints offs specifiedDistance startPos
          moves
        = DrawingArea.handleDragging dragOffset fixedPoints offs specifiedDistance
            lastMove := by
  intro moves
  induction moves with
  | nil =>
      intro s l h
      cases h
  | cons mv rest ih =>
      intro s l h
      cases rest with
      | nil =>
          have hml : mv = l := by
            simpa using h
          subst hml
          rfl
      | cons mv2 rest2 =>
          have h' : (mv2 :: rest2).getLast? = some l := by
            rw [← List.getLast?_cons_cons]
            exact h
          have step : DrawingArea.dragSession dragOffset fixedPoints offs
              specifiedDistance s (mv :: mv2 :: rest2)
              = DrawingArea.dragSession dragOffset fixedPoints offs specifiedDistance
                  (DrawingArea.handleDragging dragOffset fixedPoints offs
                    specifiedDistance mv)
                  (mv2 :: rest2) := rfl
          rw [step]
          exact ih _ l h'

/-- C6: on a move tick where no (fixed, moving) pair is within the snap
radius, the dragged shape's position is exactly the unsnapped candidate
`scenePos - dragOffset` with `dragOffset = cursorDown - shapePos` captured
at drag start; and a whole session whose every move finds no pair within
radius ends with the position exactly `lastCursor - dragOffset`. -/
theorem free_movement_exact (shapePos cursorDown : Point α)
    (fixedPoints offs : List (Point α)) (specifiedDistance : α) :
    (∀ scenePos : Point α,
      (∀ fp ∈ fixedPoints, ∀ o ∈ offs,
          ¬ (fp - ((scenePos - (cursorDown - shapePos)) + o)).manhattanLength
            ≤ specifiedDistance) →
      DrawingArea.handleDragging (cursorDown - shapePos) fixedPoints offs
          specifiedDistance scenePos
        = scenePos - (cursorDown - shapePos)) ∧
    (∀ (moves : List (Point α)) (lastMove : Point α),
      moves.getLast? = some lastMove →
      (∀ scenePos ∈ moves, ∀ fp ∈ fixedPoints, ∀ o ∈ offs,
          ¬ (fp - ((scenePos - (cursorDown - shapePos)) + o)).manhattanLength
            ≤ specifiedDistance) →
      DrawingArea.dragSession (cursorDown - shapePos) fixedPoints offs
          specifiedDistance shapePos moves
        = lastMove - (cursorDown - shapePos)) := by
  have hsingle : ∀ scenePos : Point α,
      (∀ fp ∈ fixedPoints, ∀ o ∈ offs,
          ¬ (fp - ((scenePos - (cursorDown - shapePos)) + o)).manhattanLength
            ≤ specifiedDistance) →
      DrawingArea.handleDragging (cursorDown - shapePos) fixedPoints offs
          specifiedDistance scenePos
        = scenePos - (cursorDown - shapePos) := by
    intro scenePos hfree
    have hnone : findSnapPair specifiedDistance fixedPoints
        (offs.map (fun o => (scenePos - (cursorDown - shapePos)) + o)) = none := by
      apply findSnapPair_eq_none_of
      intro fp hfp m hm
      obtain ⟨o, ho, rfl⟩ := List.mem_map.mp hm
      exact hfree fp hfp o ho
    simp only [DrawingArea.handleDragging,
      DrawingArea.checkSnapPointsProximityAndSnap, hnone]
  refine ⟨hsingle, ?_⟩
  intro moves lastMove hlast hfree
  rw [dragSession_eq_handleDragging_last (cursorDown - shapePos) fixedPoints offs
    specifiedDistance moves shapePos lastMove hlast]
  have hmem : lastMove ∈ moves := by
    obtain ⟨hne, heq⟩ := List.mem_getLast?_eq_getLast hlast
    rw [heq]
    exact List.getLast_mem hne
  exact hsingle lastMove (hfree lastMove hmem)

/-- Witness for C6: with the only fixed point far away, a two-move drag
session started by pressing at `(5, 5)` on a shape at `(0, 0)` ends
exactly at `lastCursor - dragOffset = (40, 40) - (5, 5)`. -/
theorem free_movement_exact_witness :
    DrawingArea.handleDragging ((⟨5, 5⟩ : Point ℤ) - ⟨0, 0⟩) [⟨1000, 1000⟩] [⟨0, 0⟩]
      50 ⟨20, 20⟩ = (⟨20, 20⟩ : Point ℤ) - ((⟨5, 5⟩ : Point ℤ) - ⟨0, 0⟩) ∧
    DrawingArea.dragSession ((⟨5, 5⟩ : Point ℤ) - ⟨0, 0⟩) [⟨1000, 1000⟩] [⟨0, 0⟩]
      50 ⟨0, 0⟩ [⟨20, 20⟩, ⟨40, 40⟩]
      = (⟨40, 40⟩ : Point ℤ) - ((⟨5, 5⟩ : Point ℤ) - ⟨0, 0⟩) :=
  ⟨(free_movement_exact (⟨0, 0⟩ : Point ℤ) ⟨5, 5⟩ [⟨1000, 1000⟩] [⟨0, 0⟩] 50).1
      ⟨20, 20⟩ (by decide),
    (free_movement_exact (⟨0, 0⟩ : Point ℤ) ⟨5, 5⟩ [⟨1000, 1000⟩] [⟨0, 0⟩] 50).2
      [⟨20, 20⟩, ⟨40, 40⟩] ⟨40, 40⟩ (by decide) (by decide)⟩

theorem fixedSnapPointsTaggedAux_map_snd (excludeItem : Option Nat) :
    ∀ scene : List (Item α),
      (DrawingArea.fixedSnapPointsTaggedAux excludeItem scene).map Prod.snd
        = DrawingArea.fixedSnapPointsAux excludeItem scene := by
  intro scene
  induction scene with
  | nil => rfl
  | cons it rest ih =>
      simp only [DrawingArea.fixedSnapPointsTaggedAux, DrawingArea.fixedSnapPointsAux,
        List.map_append, ih]
      congr 1
      by_cases hc : (!matchesExclude excludeItem it && it.isRect) = true
      · rw [if_pos hc, if_pos hc, List.map_map]
        simp [Function.comp]
      · rw [if_neg hc, if_neg hc]
        rfl

theorem fixedSnapPointsTaggedAux_ne_excluded (e : Nat) :
    ∀ scene : List (Item α),
      ∀ tp ∈ DrawingArea.fixedSnapPointsTaggedAux (some e) scene, tp.1 ≠ some e := by
  intro scene
  induction scene with
  | nil =>
      intro tp htp
      cases htp
  | cons it rest ih =>
      intro tp htp
      simp only [DrawingArea.fixedSnapPointsTaggedAux] at htp
      rcases List.mem_append.mp htp with hl | hr
      · by_cases hc : (!matchesExclude (some e) it && it.isRect) = true
        · rw [if_pos hc] at hl
          obtain ⟨p, _, rfl⟩ := List.mem_map.mp hl
          rw [Bool.and_eq_true, Bool.not_eq_true'] at hc
          intro hcontra
          have hid : it.id = e := Option.some.inj hcontra
          have : matchesExclude (some e) it = true := by
            simp [matchesExclude, hid]
          rw [this] at hc
          cases hc.1
        · rw [if_neg hc] at hl
          cases hl
      · exact ih tp hr

theorem cornerPoints_segment_of_mem (excludeItem : Option Nat) :
    ∀ (scene : List (Item α)) (it : Item α), it ∈ scene →
      matchesExclude excludeItem it = false → it.isRect = true →
      ∃ l1 l2, DrawingArea.fixedSnapPointsAux excludeItem scene
        = l1 ++ (it.cornerPoints ++ l2) := by
  intro scene
  induction scene with
  | nil =>
      intro it h
      cases h
  | cons it0 rest ih =>
      intro it hmem hex hrect
      rcases List.mem_cons.mp hmem with heq | hmem'
      · refine ⟨[], DrawingArea.fixedSnapPointsAux excludeItem rest, ?_⟩
        simp only [DrawingArea.fixedSnapPointsAux, List.nil_append]
        rw [heq] at hex hrect ⊢
        rw [if_pos]
        rw [Bool.and_eq_true, Bool.not_eq_true']
        exact ⟨hex, hrect⟩
      · obtain ⟨l1, l2, hl⟩ := ih it hmem' hex hrect
        refine ⟨(if !matchesExclude excludeItem it0 && it0.isRect then it0.cornerPoints
            else []) ++ l1, l2, ?_⟩
        simp only [DrawingArea.fixedSnapPointsAux, hl, List.append_assoc]

theorem fixedSnapPointsAux_filter (excludeItem : Option Nat) :
    ∀ scene : List (Item α),
      DrawingArea.fixedSnapPointsAux excludeItem (scene.filter Item.isRect)
        = DrawingArea.fixedSnapPointsAux excludeItem scene := by
  intro scene
  induction scene with
  | nil => rfl
  | cons it rest ih =>
      by_cases hr : it.isRect = true
      · rw [List.filter_cons_of_pos hr]
        simp only [DrawingArea.fixedSnapPointsAux, ih]
      · rw [List.filter_cons_of_neg (by simpa using hr)]
        simp only [DrawingArea.fixedSnapPointsAux, ih]
        rw [if_neg]
        · rw [List.nil_append]
        · simp [Bool.and_eq_true, hr]

theorem fixedSnapPointsAux_retag (excludeItem : Option Nat)
    (tmp : Item α → Bool) (pur : Item α → ItemPurpose) :
    ∀ scene : List (Item α),
      DrawingArea.fixedSnapPointsAux excludeItem (scene.map (Item.retag tmp pur))
        = DrawingArea.fixedSnapPointsAux excludeItem scene := by
  intro scene
  induction scene with
  | nil => rfl
  | cons it rest ih =>
      rw [List.map_cons]
      simp only [DrawingArea.fixedSnapPointsAux]
      rw [ih]
      rfl

/-- C4: for every scene and excluded identity `e`, the extractor's output
always contains the world origin `(0, 0)`, and no emitted point is derived
from the item whose identity is `e` (the instrumented extractor, whose
point list coincides with the real one, never produces the tag `e`). -/
theorem extract_origin_and_excluded (scene : List (Item α)) (e : Nat) :
    (∀ excludeItem : Option Nat,
      (⟨0, 0⟩ : Point α) ∈ DrawingArea.calculateFixedSnapPoints scene excludeItem) ∧
    (∀ tp ∈ DrawingArea.calculateFixedSnapPointsTagged scene (some e),
        tp.1 ≠ some e) ∧
    (DrawingArea.calculateFixedSnapPointsTagged scene (some e)).map Prod.snd
      = DrawingArea.calculateFixedSnapPoints scene (some e) := by
  refine ⟨fun _ => List.mem_cons_self _ _, ?_, ?_⟩
  · intro tp htp
    rcases List.mem_cons.mp htp with heq | hmem
    · rw [heq]
      intro hcontra
      cases hcontra
    · exact fixedSnapPointsTaggedAux_ne_excluded e scene tp hmem
  · simp only [DrawingArea.calculateFixedSnapPointsTagged,
      DrawingArea.calculateFixedSnapPoints, List.map_cons,
      fixedSnapPointsTaggedAux_map_snd]

/-- Witness for C4 at a concrete scene: one rect item of identity 1 and one
line item of identity 3; with exclusion 3 the origin is in the output and
the corner `(2, 3)` emitted by item 1 carries a tag other than 3. -/
theorem extract_origin_and_excluded_witness :
    (⟨0, 0⟩ : Point ℤ) ∈ DrawingArea.calculateFixedSnapPoints
      ([⟨1, ⟨0, 0⟩, ItemKind.rect ⟨2, 3⟩ 10 20, false, ItemPurpose.userShape⟩,
        ⟨3, ⟨0, 0⟩, ItemKind.line ⟨1, 1⟩ ⟨2, 2⟩, false, ItemPurpose.userShape⟩] :
        List (Item ℤ)) (some 3) ∧
    ((some 1 : Option Nat), (⟨2, 3⟩ : Point ℤ)).1 ≠ some 3 :=
  ⟨(extract_origin_and_excluded
      ([⟨1, ⟨0, 0⟩, ItemKind.rect ⟨2, 3⟩ 10 20, false, ItemPurpose.userShape⟩,
        ⟨3, ⟨0, 0⟩, ItemKind.line ⟨1, 1⟩ ⟨2, 2⟩, false, ItemPurpose.userShape⟩] :
        List (Item ℤ)) 3).1 (some 3),
    (extract_origin_and_excluded
      ([⟨1, ⟨0, 0⟩, ItemKind.rect ⟨2, 3⟩ 10 20, false, ItemPurpose.userShape⟩,
        ⟨3, ⟨0, 0⟩, ItemKind.line ⟨1, 1⟩ ⟨2, 2⟩, false, ItemPurpose.userShape⟩] :
        List (Item ℤ)) 3).2.1 ((some 1 : Option Nat), (⟨2, 3⟩ : Point ℤ))
      (by decide)⟩

/-- C5: every non-excluded rect item in the scene contributes its four
corners, in order top-left, top-right, bottom-left, bottom-right, each
transformed into scene coordinates as `item.pos + local corner`; and the
spec's Scenario A holds: a single 100×100 rectangle at the origin yields
the origin plus the four corners, with `(0, 0)` appearing twice (once as
origin, once as corner). -/
theorem rect_corners_emitted (scene : List (Item α)) (excludeItem : Option Nat)
    (it : Item α) (tl : Point α) (w h : α)
    (hmem : it ∈ scene) (hkind : it.kind = ItemKind.rect tl w h)
    (hex : matchesExclude excludeItem it = false) :
    (∃ l1 l2, DrawingArea.calculateFixedSnapPoints scene excludeItem
        = (⟨0, 0⟩ : Point α) :: (l1 ++ (it.cornerPoints ++ l2))) ∧
    it.cornerPoints
      = [it.pos + tl, it.pos + ⟨tl.x + w, tl.y⟩, it.pos + ⟨tl.x, tl.y + h⟩,
          it.pos + ⟨tl.x + w, tl.y + h⟩] ∧
    DrawingArea.calculateFixedSnapPoints
        ([⟨1, ⟨0, 0⟩, ItemKind.rect ⟨0, 0⟩ 100 100, false, ItemPurpose.userShape⟩] :
          List (Item ℤ)) none
      = [⟨0, 0⟩, ⟨0, 0⟩, ⟨100, 0⟩, ⟨0, 100⟩, ⟨100, 100⟩] ∧
    (DrawingArea.calculateFixedSnapPoints
        ([⟨1, ⟨0, 0⟩, ItemKind.rect ⟨0, 0⟩ 100 100, false, ItemPurpose.userShape⟩] :
          List (Item ℤ)) none).count ⟨0, 0⟩ = 2 := by
  have hrect : it.isRect = true := by
    simp [Item.isRect, hkind]
  refine ⟨?_, ?_, by decide, by decide⟩
  · obtain ⟨l1, l2, hl⟩ := cornerPoints_segment_of_mem excludeItem scene it hmem hex hrect
    exact ⟨l1, l2, by rw [DrawingArea.calculateFixedSnapPoints, hl]⟩
  · simp [Item.cornerPoints, hkind, Item.mapToScene]

/-- Witness for C5: the Scenario A rectangle itself — its four corners form
a contiguous segment of the output right after the origin. -/
theorem rect_corners_emitted_witness :
    (∃ l1 l2, DrawingArea.calculateFixedSnapPoints
        ([⟨1, ⟨0, 0⟩, ItemKind.rect ⟨0, 0⟩ 100 100, false, ItemPurpose.userShape⟩] :
          List (Item ℤ)) none
        = (⟨0, 0⟩ : Point ℤ) ::
            (l1 ++ ((⟨1, ⟨0, 0⟩, ItemKind.rect ⟨0, 0⟩ 100 100, false,
                ItemPurpose.userShape⟩ : Item ℤ).cornerPoints ++ l2))) ∧
    (⟨1, ⟨0, 0⟩, ItemKind.rect ⟨0, 0⟩ 100 100, false,
        ItemPurpose.userShape⟩ : Item ℤ).cornerPoints
      = [(⟨0, 0⟩ : Point ℤ) + ⟨0, 0⟩, (⟨0, 0⟩ : Point ℤ) + ⟨0 + 100, 0⟩,
          (⟨0, 0⟩ : Point ℤ) + ⟨0, 0 + 100⟩, (⟨0, 0⟩ : Point ℤ) + ⟨0 + 100, 0 + 100⟩] ∧
    DrawingArea.calculateFixedSnapPoints
        ([⟨1, ⟨0, 0⟩, ItemKind.rect ⟨0, 0⟩ 100 100, false, ItemPurpose.userShape⟩] :
          List (Item ℤ)) none
      = [⟨0, 0⟩, ⟨0, 0⟩, ⟨100, 0⟩, ⟨0, 100⟩, ⟨100, 100⟩] ∧
    (DrawingArea.calculateFixedSnapPoints
        ([⟨1, ⟨0, 0⟩, ItemKind.rect ⟨0, 0⟩ 100 100, false, ItemPurpose.userShape⟩] :
          List (Item ℤ)) none).count ⟨0, 0⟩ = 2 :=
  rect_corners_emitted
    [⟨1, ⟨0, 0⟩, ItemKind.rect ⟨0, 0⟩ 100 100, false, ItemPurpose.userShape⟩]
    none ⟨1, ⟨0, 0⟩, ItemKind.rect ⟨0, 0⟩ 100 100, false, ItemPurpose.userShape⟩
    ⟨0, 0⟩ 100 100 (by decide) rfl rfl

/-- C3 counterexample: a scene holding a single non-excluded line from
`(1, 2)` to `(3, 4)`: the extractor emits only the origin and neither
endpoint, contradicting the claim that every non-excluded line's two
endpoints are emitted. -/
theorem line_endpoints_not_emitted :
    DrawingArea.calculateFixedSnapPoints
        ([⟨1, ⟨0, 0⟩, ItemKind.line ⟨1, 2⟩ ⟨3, 4⟩, false, ItemPurpose.userShape⟩] :
          List (Item ℤ)) none
      = [⟨0, 0⟩] ∧
    (⟨1, 2⟩ : Point ℤ) ∉ DrawingArea.calculateFixedSnapPoints
        ([⟨1, ⟨0, 0⟩, ItemKind.line ⟨1, 2⟩ ⟨3, 4⟩, false, ItemPurpose.userShape⟩] :
          List (Item ℤ)) none ∧
    (⟨3, 4⟩ : Point ℤ) ∉ DrawingArea.calculateFixedSnapPoints
        ([⟨1, ⟨0, 0⟩, ItemKind.line ⟨1, 2⟩ ⟨3, 4⟩, false, ItemPurpose.userShape⟩] :
          List (Item ℤ)) none := by
  decide

/-- C3 (amended): line shapes contribute no snap points at all: the
fixed-point extractor's output is unchanged when every non-rect item is
dropped from the scene, and a dragged line item yields no moving snap
points. -/
theorem lines_contribute_no_snap_points (scene : List (Item α))
    (excludeItem : Option Nat) (it : Item α) (p1 p2 : Point α)
    (hkind : it.kind = ItemKind.line p1 p2) :
    DrawingArea.calculateFixedSnapPoints scene excludeItem
      = DrawingArea.calculateFixedSnapPoints (scene.filter Item.isRect) excludeItem ∧
    DrawingArea.calculateDraggingItemSnapPoints (some it) = [] := by
  constructor
  · unfold DrawingArea.calculateFixedSnapPoints
    rw [fixedSnapPointsAux_filter]
  · have hrect : it.isRect = false := by
      simp [Item.isRect, hkind]
    simp [DrawingArea.calculateDraggingItemSnapPoints, hrect]

/-- Witness for C3 (amended) at a scene of one line and one rect, with the
line itself as the dragged item. -/
theorem lines_contribute_no_snap_points_witness :
    DrawingArea.calculateFixedSnapPoints
        ([⟨1, ⟨0, 0⟩, ItemKind.line ⟨1, 2⟩ ⟨3, 4⟩, false, ItemPurpose.userShape⟩,
          ⟨2, ⟨5, 5⟩, ItemKind.rect ⟨0, 0⟩ 10 10, false, ItemPurpose.userShape⟩] :
          List (Item ℤ)) none
      = DrawingArea.calculateFixedSnapPoints
          (([⟨1, ⟨0, 0⟩, ItemKind.line ⟨1, 2⟩ ⟨3, 4⟩, false, ItemPurpose.userShape⟩,
            ⟨2, ⟨5, 5⟩, ItemKind.rect ⟨0, 0⟩ 10 10, false, ItemPurpose.userShape⟩] :
            List (Item ℤ)).filter Item.isRect) none ∧
    DrawingArea.calculateDraggingItemSnapPoints
        (some (⟨1, ⟨0, 0⟩, ItemKind.line ⟨1, 2⟩ ⟨3, 4⟩, false,
          ItemPurpose.userShape⟩ : Item ℤ)) = [] :=
  lines_contribute_no_snap_points
    [⟨1, ⟨0, 0⟩, ItemKind.line ⟨1, 2⟩ ⟨3, 4⟩, false, ItemPurpose.userShape⟩,
      ⟨2, ⟨5, 5⟩, ItemKind.rect ⟨0, 0⟩ 10 10, false, ItemPurpose.userShape⟩]
    none ⟨1, ⟨0, 0⟩, ItemKind.line ⟨1, 2⟩ ⟨3, 4⟩, false, ItemPurpose.userShape⟩
    ⟨1, 2⟩ ⟨3, 4⟩ rfl

theorem runMoveEvents_id (st : DragControllerState α)
    (hst : st.isDraggingStarted = false) :
    ∀ scenes : List (List (Item α)), DrawingArea.runMoveEvents st scenes = st := by
  have hone : ∀ scene : List (Item α),
      DrawingArea.mouseMoveEventSnapState scene st = st := by
    intro scene
    unfold DrawingArea.mouseMoveEventSnapState
    cases st.currentlyDraggingItem with
    | none => rfl
    | some _ =>
        rw [hst]
        rfl
  intro scenes
  induction scenes with
  | nil => rfl
  | cons s rest ih =>
      have step : DrawingArea.runMoveEvents st (s :: rest)
          = DrawingArea.runMoveEvents (DrawingArea.mouseMoveEventSnapState s st)
              rest := rfl
      rw [step, hone s]
      exact ih

/-- C7: after a press begins a drag of the item with identity `itemId`, the
first move event computes the fixed snap points from that tick's scene
with the dragged item excluded and clears the start flag; every later move
event, whatever the scene then contains, leaves the controller state — in
particular the frozen fixed set — unchanged; and no point of the frozen
set is derived from the dragged item itself (the instrumented extractor
never produces its tag).  The visual list is empty at session start
because `mouseReleaseEvent` cleared it when the previous drag ended. -/
theorem fixed_snap_points_frozen (itemId : Nat) (st0 : DragControllerState α)
    (s0 : List (Item α)) (rest : List (List (Item α)))
    (hstart : st0.fixedSnapPoints = []) :
    DrawingArea.runMoveEvents (DrawingArea.mousePressBeginDrag itemId st0)
        (s0 :: rest)
      = ⟨some itemId, false, DrawingArea.calculateFixedSnapPoints s0 (some itemId)⟩ ∧
    (∀ tp ∈ DrawingArea.calculateFixedSnapPointsTagged s0 (some itemId),
        tp.1 ≠ some itemId) := by
  constructor
  · have hfirst : DrawingArea.mouseMoveEventSnapState s0
        (DrawingArea.mousePressBeginDrag itemId st0)
        = ⟨some itemId, false,
            DrawingArea.calculateFixedSnapPoints s0 (some itemId)⟩ := by
      show (⟨some itemId, false, st0.fixedSnapPoints
          ++ DrawingArea.calculateFixedSnapPoints s0 (some itemId)⟩ :
          DragControllerState α)
        = ⟨some itemId, false, DrawingArea.calculateFixedSnapPoints s0 (some itemId)⟩
      rw [hstart, List.nil_append]
    have step : DrawingArea.runMoveEvents (DrawingArea.mousePressBeginDrag itemId st0)
        (s0 :: rest)
        = DrawingArea.runMoveEvents
            (DrawingArea.mouseMoveEventSnapState s0
              (DrawingArea.mousePressBeginDrag itemId st0)) rest := rfl
    rw [step, hfirst]
    exact runMoveEvents_id _ rfl rest
  · intro tp htp
    rcases List.mem_cons.mp htp with heq | hmem
    · rw [heq]
      intro hcontra
      cases hcontra
    · exact fixedSnapPointsTaggedAux_ne_excluded itemId s0 tp hmem

/-- Witness for C7: pressing on item 1 in a two-item scene and moving
twice (the second tick seeing a changed scene) freezes exactly the
extraction of the first tick's scene without item 1. -/
theorem fixed_snap_points_frozen_witness :
    DrawingArea.runMoveEvents
        (DrawingArea.mousePressBeginDrag 1 (⟨none, false, []⟩ : DragControllerState ℤ))
        [[⟨1, ⟨0, 0⟩, ItemKind.rect ⟨0, 0⟩ 10 10, false, ItemPurpose.userShape⟩,
          ⟨2, ⟨5, 5⟩, ItemKind.rect ⟨0, 0⟩ 10 10, false, ItemPurpose.userShape⟩],
         [⟨1, ⟨100, 100⟩, ItemKind.rect ⟨0, 0⟩ 10 10, false, ItemPurpose.userShape⟩]]
      = ⟨some 1, false,
          DrawingArea.calculateFixedSnapPoints
            ([⟨1, ⟨0, 0⟩, ItemKind.rect ⟨0, 0⟩ 10 10, false, ItemPurpose.userShape⟩,
              ⟨2, ⟨5, 5⟩, ItemKind.rect ⟨0, 0⟩ 10 10, false, ItemPurpose.userShape⟩] :
              List (Item ℤ)) (some 1)⟩ ∧
    ((some 2 : Option Nat), (⟨5, 5⟩ : Point ℤ)).1 ≠ some 1 :=
  ⟨(fixed_snap_points_frozen 1 ⟨none, false, []⟩
      [⟨1, ⟨0, 0⟩, ItemKind.rect ⟨0, 0⟩ 10 10, false, ItemPurpose.userShape⟩,
        ⟨2, ⟨5, 5⟩, ItemKind.rect ⟨0, 0⟩ 10 10, false, ItemPurpose.userShape⟩]
      [[⟨1, ⟨100, 100⟩, ItemKind.rect ⟨0, 0⟩ 10 10, false, ItemPurpose.userShape⟩]]
      rfl).1,
    (fixed_snap_points_frozen 1 ⟨none, false, []⟩
      [⟨1, ⟨0, 0⟩, ItemKind.rect ⟨0, 0⟩ 10 10, false, ItemPurpose.userShape⟩,
        ⟨2, ⟨5, 5⟩, ItemKind.rect ⟨0, 0⟩ 10 10, false, ItemPurpose.userShape⟩]
      [[⟨1, ⟨100, 100⟩, ItemKind.rect ⟨0, 0⟩ 10 10, false, ItemPurpose.userShape⟩]]
      rfl).2
      ((some 2 : Option Nat), (⟨5, 5⟩ : Point ℤ)) (by decide)⟩

/-- C8 counterexample: invoking `SnapManager.calculateFixedSnapPoints` on a
fresh manager (empty `fixed_snap_points`, as in `__init__`) over a scene
holding one rectangle changes the manager's state: the cache field is
overwritten, so the call does not leave all program state unchanged. -/
theorem snapManager_extract_mutates :
    SnapManager.calculateFixedSnapPoints
        (⟨[⟨1, ⟨0, 0⟩, ItemKind.rect ⟨0, 0⟩ 100 100, false, ItemPurpose.userShape⟩],
          50, []⟩ : SnapManagerState ℤ) none
      ≠ ⟨[⟨1, ⟨0, 0⟩, ItemKind.rect ⟨0, 0⟩ 100 100, false, ItemPurpose.userShape⟩],
          50, []⟩ := by
  decide

/-- C8 (amended): the extractor leaves the shape registry and every shape
unchanged and is deterministic — the `DrawingArea` variant is a pure
function of the scene, and the `SnapManager` variant touches nothing but
its own `fixed_snap_points` cache, which it overwrites with the pure
extraction of its scene; invoking it twice on an unchanged scene yields
the identical state and cache (order and values). -/
theorem snapManager_extract_effects (st : SnapManagerState α)
    (excludeItem : Option Nat) :
    (SnapManager.calculateFixedSnapPoints st excludeItem).scene = st.scene ∧
    (SnapManager.calculateFixedSnapPoints st excludeItem).snapRadius
      = st.snapRadius ∧
    (SnapManager.calculateFixedSnapPoints st excludeItem).fixedSnapPointsCache
      = DrawingArea.calculateFixedSnapPoints st.scene excludeItem ∧
    SnapManager.calculateFixedSnapPoints
        (SnapManager.calculateFixedSnapPoints st excludeItem) excludeItem
      = SnapManager.calculateFixedSnapPoints st excludeItem :=
  ⟨rfl, rfl, rfl, rfl⟩

/-- C10: the extractor reads only identity, position and geometry — its
output is invariant under arbitrarily rewriting every item's `isTemporary`
flag and provenance tag; concretely, a snap-indicator visual (the 50×50
rect item `displaySnapPoints` adds around a snap point) and a temporary
preview rectangle each contribute their four corners whenever they are in
the scene at extraction time. -/
theorem extractor_ignores_flags (scene : List (Item α)) (excludeItem : Option Nat)
    (tmp : Item α → Bool) (pur : Item α → ItemPurpose) :
    DrawingArea.calculateFixedSnapPoints (scene.map (Item.retag tmp pur)) excludeItem
      = DrawingArea.calculateFixedSnapPoints scene excludeItem ∧
    DrawingArea.calculateFixedSnapPoints
        ([⟨7, ⟨0, 0⟩, ItemKind.rect ⟨-15, -15⟩ 50 50, false,
            ItemPurpose.snapIndicator⟩] : List (Item ℤ)) none
      = [⟨0, 0⟩, ⟨-15, -15⟩, ⟨35, -15⟩, ⟨-15, 35⟩, ⟨35, 35⟩] ∧
    DrawingArea.calculateFixedSnapPoints
        ([⟨8, ⟨0, 0⟩, ItemKind.rect ⟨10, 10⟩ 30 40, true,
            ItemPurpose.tempPreview⟩] : List (Item ℤ)) none
      = [⟨0, 0⟩, ⟨10, 10⟩, ⟨40, 10⟩, ⟨10, 50⟩, ⟨40, 50⟩] := by
  refine ⟨?_, by decide, by decide⟩
  unfold DrawingArea.calculateFixedSnapPoints
  rw [fixedSnapPointsAux_retag]

end SlabWizard
